import Mathlib

/-!
Shallow embedding of the simplefs disk-backed cache store (package simplefs,
file simplefs.go) and proofs about its externally observable behavior.

The engine couples an in-memory TTL index (the external jellydator ttlcache,
modelled here at the interface the specification gives it in section 4.4:
entries are kept most recent first, a ttl at most zero counts as already
expired, set and delete fire the insertion and eviction notifications
synchronously), a flat file blob store under one root directory, a running
byte counter actualSize, and a recursive quota reclaimer. External
collaborators (the lz4 and zstd codecs, url.PathEscape, the core mapping
merge function) are modelled at their interface boundary; the mapping merge
function is passed in as an explicit function argument. Time does not
advance inside a single operation, so an entry is live exactly when its
stored ttl is positive. The fuel argument of the reclaimer makes its
unbounded recursion a total function: a result of none means the recursion
has not reached its guarded exit within the given fuel, for any fuel.
-/

namespace Simplefs

/-- Characterwise test that the first list is a leading segment of the
second; building block for the embedding of Go strings.Contains. -/
def startsWith : List Char → List Char → Bool
  | [], _ => true
  | _ :: _, [] => false
  | a :: as, b :: bs => a == b && startsWith as bs

/-- Occurrence test of the pattern anywhere inside the second list. -/
def containsSub (pat : List Char) : List Char → Bool
  | [] => startsWith pat []
  | c :: cs => startsWith pat (c :: cs) || containsSub pat cs

/-- Embedding of Go strings.Contains: does pat occur inside s. -/
def strContains (s pat : String) : Bool := containsSub pat.data s.data

/-- Modelled from the spec: the reserved mapping-record key marker of the
external core library (core.MappingKeyPrefix), whose source lives outside
this module; only its role as a fixed reserved marker matters, the concrete
text "IDX_" is a stand-in. -/
def mappingPfx : String := "IDX_"

/-- Modelled from the spec: external url.PathEscape, treated as an opaque
injective renaming of keys into flat file names; no claim depends on the
escaping scheme itself. -/
def pathEscape (s : String) : String := s

/-- Modelled from the spec: the external lz4 encoder, an opaque codec behind
the encode contract; a tagged stand-in keeps it computable. -/
def lz4Enc (v : String) : String := "L4" ++ v

/-- Modelled from the spec: the external lz4 decoder matching lz4Enc. -/
def lz4Dec (v : String) : Option String :=
  if startsWith "L4".data v.data then some (v.drop 2) else none

/-- Modelled from the spec: the external zstd encoder, an opaque codec. -/
def zstdEnc (v : String) : String := "ZS" ++ v

/-- Modelled from the spec: the external zstd decoder matching zstdEnc. -/
def zstdDec (v : String) : Option String :=
  if startsWith "ZS".data v.data then some (v.drop 2) else none

/-- Filesystem contents: association of paths to file bytes. -/
abbrev Fs := List (String × String)

/-- Embedding of os.Stat restricted to the size the hooks use. -/
def fsStat (fs : Fs) (p : String) : Option Int :=
  (fs.find? (fun e => e.1 == p)).map (fun e => (e.2.length : Int))

/-- Embedding of os.ReadFile. -/
def fsRead (fs : Fs) (p : String) : Option String :=
  (fs.find? (fun e => e.1 == p)).map (fun e => e.2)

/-- Embedding of os.Remove as used by onEvict; removal of an absent path is
a no-op at the level of the resulting directory contents. -/
def fsRemove (fs : Fs) (p : String) : Fs := fs.filter (fun e => e.1 != p)

/-- Embedding of os.WriteFile: the paths listed in wfail are those on which
the write fails, modelling the I/O errors the engine logs. -/
def fsWrite (wfail : List String) (fs : Fs) (p c : String) : Option Fs :=
  if wfail.contains p then none else some ((p, c) :: fsRemove fs p)

/-- Engine state: the TTL index (entries key, value, ttl, most recent
first), the blob directory contents, and the actualSize byte counter. -/
structure SState where
  cache : List (String × String × Int)
  fs : Fs
  actualSize : Int
deriving DecidableEq

/-- Engine configuration: storage root path, directorySize budget (minus
one meaning unbounded), compression method, and the write-failing paths. -/
structure Config where
  path : String
  directorySize : Int
  compression : String
  wfail : List String

/-- Lookup of a live or expired index entry by key. -/
def cacheLookup (c : List (String × String × Int)) (k : String) : Option (String × Int) :=
  (c.find? (fun e => e.1 == k)).map (fun e => e.2)

/-- OnInsertion hook attached in Init (source lines 389 to 407): keys
containing the mapping marker are skipped, otherwise the value is statted as
a path and actualSize grows by the file size; a failing stat leaves the
counter untouched. -/
def onInsertionHook (st : SState) (k v : String) : SState :=
  if strContains k mappingPfx then st
  else
    match fsStat st.fs v with
    | none => st
    | some sz => { st with actualSize := st.actualSize + sz }

/-- OnEviction hook attached in Init (source lines 410 to 432): the skip
test reads the mapping marker in the VALUE of the entry (source line 411),
then the value is statted, actualSize shrinks by the file size and the
physical file is removed via onEvict; a failing stat returns early. -/
def onEvictionHook (st : SState) (k v : String) : SState :=
  if strContains v mappingPfx then st
  else
    match fsStat st.fs v with
    | none => st
    | some sz => { st with actualSize := st.actualSize - sz, fs := fsRemove st.fs v }

/-- Index set, per spec section 4.4: replace any entry with the same key,
insert most recent first, and fire the insertion notification. -/
def cacheSet (st : SState) (k v : String) (ttl : Int) : SState :=
  onInsertionHook
    { st with cache := (k, v, ttl) :: st.cache.filter (fun e => e.1 != k) } k v

/-- Index get, per spec section 4.4: a hit needs presence and a positive
remaining ttl, a ttl at most zero being already expired. -/
def cacheGet (st : SState) (k : String) : Option String :=
  match cacheLookup st.cache k with
  | none => none
  | some (v, ttl) => if 0 < ttl then some v else none

/-- Index delete, per spec section 4.4: remove the entry and fire the
eviction notification synchronously; absent keys are a no-op. -/
def cacheDelete (st : SState) (k : String) : SState :=
  match cacheLookup st.cache k with
  | none => st
  | some (v, _) =>
    onEvictionHook { st with cache := st.cache.filter (fun e => e.1 != k) } k v

/-- Get (source lines 198 to 249): look the key up, read the stored value as
a file path, fall back to returning the stored bytes themselves when the
read fails, otherwise decode per the configured compression method; an
unsupported method yields a miss. -/
def Get (cfg : Config) (st : SState) (key : String) : Option String :=
  match cacheGet st key with
  | none => none
  | some v =>
    match fsRead st.fs v with
    | none => some v
    | some contents =>
      match cfg.compression with
      | "lz4" => lz4Dec contents
      | "zstd" => zstdDec contents
      | "" => some contents
      | _ => none

/-- Set (source lines 358 to 362): store the raw value bytes in the index
under the key with the given ttl and report success. -/
def Set (st : SState) (key value : String) (dur : Int) : Except String Unit × SState :=
  (Except.ok (), cacheSet st key value dur)

/-- Delete (source lines 365 to 367). -/
def Delete (st : SState) (key : String) : SState := cacheDelete st key

/-- One RangeBackwards pass of the reclaimer (source lines 272 to 279):
visit the oldest entry, stop after the first callback, and inside the
callback call Delete with the VALUE of that entry (source line 276). -/
def recoverStep (st : SState) : SState :=
  match st.cache.getLast? with
  | none => st
  | some e => cacheDelete st e.2.1

/-- recoverEnoughSpaceIfNeeded (source lines 268 to 283) with explicit fuel
for its unbounded recursion: while a finite budget is configured and
actualSize plus the incoming size exceeds it, run one backwards pass and
recurse; none models not reaching the guarded exit within the fuel. -/
def recoverEnoughSpaceIfNeeded (dirSize : Int) : Nat → SState → Int → Option SState
  | 0, st, size =>
    if dirSize > -1 ∧ st.actualSize + size > dirSize then none else some st
  | fuel + 1, st, size =>
    if dirSize > -1 ∧ st.actualSize + size > dirSize then
      recoverEnoughSpaceIfNeeded dirSize fuel (recoverStep st) size
    else some st

/-- Compression switch of SetMultiLevel (source lines 293 to 316): zstd and
lz4 delegate to the codecs, the empty method also uses the lz4 writer
(source line 305), and an unknown method stores the bytes uncompressed after
logging a warning. -/
def encodeStep (method value : String) : String :=
  match method with
  | "zstd" => zstdEnc value
  | "lz4" => lz4Enc value
  | "" => lz4Enc value
  | _ => value

/-- SetMultiLevel (source lines 286 to 355). The updater argument stands for
the external core mapping merge function at its interface, fed the varied
key and the current record bytes (empty when the mapping key misses, source
line 336) and returning the merged bytes or an error; ns is the nanosecond
field of the clock read at source line 347, so the mapping record ttl is
minus twice ns; fuel bounds the reclaimer recursion. A failing blob write is
logged and the call returns success without touching the index (source
lines 322 to 326). -/
def SetMultiLevel (cfg : Config) (updater : String → String → Except String String)
    (ns : Nat) (fuel : Nat) (st : SState)
    (baseKey variedKey value : String) (dur : Int) :
    Option (Except String Unit × SState) :=
  match recoverEnoughSpaceIfNeeded cfg.directorySize fuel st
      ((encodeStep cfg.compression value).length : Int) with
  | none => none
  | some st1 =>
    match fsWrite cfg.wfail st1.fs (cfg.path ++ "/" ++ pathEscape variedKey)
        (encodeStep cfg.compression value) with
    | none => some (Except.ok (), st1)
    | some fs2 =>
      let st3 := cacheSet { st1 with fs := fs2 } variedKey
        (cfg.path ++ "/" ++ pathEscape variedKey) dur
      match updater variedKey ((cacheGet st3 (mappingPfx ++ baseKey)).getD "") with
      | Except.error e => some (Except.error e, st3)
      | Except.ok merged =>
        some (Except.ok (), cacheSet st3 (mappingPfx ++ baseKey) merged (-(2 * (ns : Int))))

/-- Startup scan of Init (source lines 435 to 444): seed actualSize with the
sizes of the files already present in the storage directory. -/
def initDirectoryScan (st : SState) : SState :=
  { st with actualSize := st.actualSize + st.fs.foldl (fun a e => a + (e.2.length : Int)) 0 }

/-- Empty engine state. -/
def st0 : SState := { cache := [], fs := [], actualSize := 0 }

/-- Reference configuration: root path /p, budget 100 bytes, no compression
configured, no failing writes. -/
def cfgW : Config := { path := "/p", directorySize := 100, compression := "", wfail := [] }

/-- Configuration with an unrecognized compression method. -/
def cfgBro : Config := { path := "/p", directorySize := -1, compression := "brotli", wfail := [] }

/-- Configuration on which the write of the blob for key k fails. -/
def cfgFail : Config := { path := "/p", directorySize := -1, compression := "", wfail := ["/p/k"] }

/-- Merge function that always succeeds with the record m. -/
def updOkM : String → String → Except String String := fun _ _ => Except.ok "m"

/-- Merge function that always fails. -/
def updBoom : String → String → Except String String := fun _ _ => Except.error "boom"

/-- State holding one sixty byte blob file indexed under k1, with the
counter matching the directory contents. -/
def stC2 : SState :=
  { cache := [("k1", "/f1", 5)]
    fs := [("/f1", String.mk (List.replicate 60 'a'))]
    actualSize := 60 }

/-- State after the full write path of SetMultiLevel on cfgW from st0. -/
def stW : SState :=
  { cache := [("IDX_b", "m", -2), ("k", "/p/k", 5)]
    fs := [("/p/k", "L4v")], actualSize := 3 }

/-- State after the write path of SetMultiLevel when the merge step fails:
the blob and the varied key entry are present, the mapping record is not. -/
def stErr : SState :=
  { cache := [("k", "/p/k", 5)], fs := [("/p/k", "L4v")], actualSize := 3 }

/-- State after the full write path of SetMultiLevel on cfgBro from st0. -/
def stBro : SState :=
  { cache := [("IDX_b", "m", -2), ("k", "/p/k", 5)]
    fs := [("/p/k", "v")], actualSize := 1 }

/-- State whose directory holds one empty file at /f. -/
def stF : SState := { cache := [], fs := [("/f", "")], actualSize := 0 }

/-- State reachable by running the Init startup scan over a directory that
already holds one two hundred byte file: the counter is seeded to 200 while
the index starts empty. -/
def stSeed : SState :=
  initDirectoryScan
    { cache := [], fs := [("/old", String.mk (List.replicate 200 'a'))], actualSize := 0 }

/-- State holding a mapping record entry whose record bytes do not contain
the reserved marker and happen to name an existing file. -/
def stMap : SState := { cache := [("IDX_k", "/f", -1)], fs := [("/f", "ab")], actualSize := 2 }

/-- State holding one plain index entry whose raw value names no file. -/
def stRaw : SState := { cache := [("k", "v", 5)], fs := [], actualSize := 0 }

theorem startsWith_self_append (l t : List Char) : startsWith l (l ++ t) = true := by
  induction l with
  | nil => rfl
  | cons a as ih => simp [startsWith, ih]

theorem containsSub_self_append (pat t : List Char) : containsSub pat (pat ++ t) = true := by
  cases pat with
  | nil =>
    cases t with
    | nil => rfl
    | cons c cs => rfl
  | cons a as =>
    show containsSub (a :: as) (a :: (as ++ t)) = true
    simp [containsSub, startsWith, startsWith_self_append]

theorem strContains_append_self (s : String) :
    strContains (mappingPfx ++ s) mappingPfx = true := by
  unfold strContains
  rw [String.data_append]
  exact containsSub_self_append _ _

theorem onInsertionHook_cache (st : SState) (k v : String) :
    (onInsertionHook st k v).cache = st.cache := by
  unfold onInsertionHook
  split
  · rfl
  · split <;> rfl

theorem onInsertionHook_fs (st : SState) (k v : String) :
    (onInsertionHook st k v).fs = st.fs := by
  unfold onInsertionHook
  split
  · rfl
  · split <;> rfl

theorem onEvictionHook_cache (st : SState) (k v : String) :
    (onEvictionHook st k v).cache = st.cache := by
  unfold onEvictionHook
  split
  · rfl
  · split <;> rfl

theorem cacheSet_cache (st : SState) (k v : String) (ttl : Int) :
    (cacheSet st k v ttl).cache = (k, v, ttl) :: st.cache.filter (fun e => e.1 != k) := by
  unfold cacheSet
  rw [onInsertionHook_cache]

theorem cacheSet_fs (st : SState) (k v : String) (ttl : Int) :
    (cacheSet st k v ttl).fs = st.fs := by
  unfold cacheSet
  rw [onInsertionHook_fs]

theorem cacheSet_actualSize_skip (st : SState) (k v : String) (ttl : Int)
    (h : strContains k mappingPfx = true) :
    (cacheSet st k v ttl).actualSize = st.actualSize := by
  unfold cacheSet onInsertionHook
  rw [if_pos h]

theorem cacheSet_actualSize_stat (st : SState) (k v : String) (ttl : Int) (n : Int)
    (h : strContains k mappingPfx = false) (hs : fsStat st.fs v = some n) :
    (cacheSet st k v ttl).actualSize = st.actualSize + n := by
  unfold cacheSet onInsertionHook
  rw [if_neg (by simp [h])]
  have hs2 : fsStat (SState.mk ((k, v, ttl) :: st.cache.filter (fun e => e.1 != k)) st.fs
      st.actualSize).fs v = some n := hs
  rw [hs2]

theorem cacheSet_actualSize_mapping (st : SState) (b v : String) (ttl : Int) :
    (cacheSet st (mappingPfx ++ b) v ttl).actualSize = st.actualSize :=
  cacheSet_actualSize_skip st _ v ttl (strContains_append_self b)

theorem cacheLookup_cons_self (c : List (String × String × Int)) (k v : String) (ttl : Int) :
    cacheLookup ((k, v, ttl) :: c) k = some (v, ttl) := by
  unfold cacheLookup
  rw [List.find?_cons_of_pos _ (by simp)]
  rfl

theorem cacheLookup_cons_ne (c : List (String × String × Int)) (k q v : String) (ttl : Int)
    (h : k ≠ q) :
    cacheLookup ((k, v, ttl) :: c) q = cacheLookup c q := by
  unfold cacheLookup
  rw [List.find?_cons_of_neg _ (by simp [h])]

theorem cacheLookup_filter_none (c : List (String × String × Int)) (q : String)
    (p : String × String × Int → Bool) (h : cacheLookup c q = none) :
    cacheLookup (c.filter p) q = none := by
  unfold cacheLookup at h ⊢
  rw [Option.map_eq_none'] at h ⊢
  exact (List.filter_sublist c).find?_eq_none h

theorem cacheDelete_lookup_none (st : SState) (j q : String)
    (h : cacheLookup st.cache q = none) :
    cacheLookup (cacheDelete st j).cache q = none := by
  unfold cacheDelete
  split
  · exact h
  · rw [onEvictionHook_cache]
    exact cacheLookup_filter_none _ _ _ h

theorem recoverStep_lookup_none (st : SState) (q : String)
    (h : cacheLookup st.cache q = none) :
    cacheLookup (recoverStep st).cache q = none := by
  unfold recoverStep
  split
  · exact h
  · exact cacheDelete_lookup_none _ _ _ h

theorem recover_lookup_none (dirSize size : Int) (q : String) :
    ∀ (fuel : Nat) (st st1 : SState),
    recoverEnoughSpaceIfNeeded dirSize fuel st size = some st1 →
    cacheLookup st.cache q = none → cacheLookup st1.cache q = none
  | 0, st, st1, h, hq => by
    unfold recoverEnoughSpaceIfNeeded at h
    by_cases hg : dirSize > -1 ∧ st.actualSize + size > dirSize
    · rw [if_pos hg] at h
      exact absurd h (by simp)
    · rw [if_neg hg] at h
      cases h
      exact hq
  | fuel + 1, st, st1, h, hq => by
    unfold recoverEnoughSpaceIfNeeded at h
    by_cases hg : dirSize > -1 ∧ st.actualSize + size > dirSize
    · rw [if_pos hg] at h
      exact recover_lookup_none dirSize size q fuel _ st1 h (recoverStep_lookup_none st q hq)
    · rw [if_neg hg] at h
      cases h
      exact hq

theorem recover_exitGuard (dirSize size : Int) :
    ∀ (fuel : Nat) (st st1 : SState),
    recoverEnoughSpaceIfNeeded dirSize fuel st size = some st1 →
    ¬(dirSize > -1 ∧ st1.actualSize + size > dirSize)
  | 0, st, st1, h => by
    unfold recoverEnoughSpaceIfNeeded at h
    by_cases hg : dirSize > -1 ∧ st.actualSize + size > dirSize
    · rw [if_pos hg] at h
      exact absurd h (by simp)
    · rw [if_neg hg] at h
      cases h
      exact hg
  | fuel + 1, st, st1, h => by
    unfold recoverEnoughSpaceIfNeeded at h
    by_cases hg : dirSize > -1 ∧ st.actualSize + size > dirSize
    · rw [if_pos hg] at h
      exact recover_exitGuard dirSize size fuel _ st1 h
    · rw [if_neg hg] at h
      cases h
      exact hg

theorem fsWrite_stat (wfail : List String) (fs fs2 : Fs) (p c : String)
    (h : fsWrite wfail fs p c = some fs2) :
    fsStat fs2 p = some (c.length : Int) := by
  unfold fsWrite at h
  split at h
  · exact absurd h (by simp)
  · cases h
    unfold fsStat
    rw [List.find?_cons_of_pos _ (by simp)]
    rfl

theorem fsWrite_read (wfail : List String) (fs fs2 : Fs) (p c : String)
    (h : fsWrite wfail fs p c = some fs2) :
    fsRead fs2 p = some c := by
  unfold fsWrite at h
  split at h
  · exact absurd h (by simp)
  · cases h
    unfold fsRead
    rw [List.find?_cons_of_pos _ (by simp)]
    rfl

theorem cacheSet_lookup_none (st : SState) (k v : String) (ttl : Int) (q : String)
    (hq : k ≠ q) (h : cacheLookup st.cache q = none) :
    cacheLookup (cacheSet st k v ttl).cache q = none := by
  rw [cacheSet_cache, cacheLookup_cons_ne _ _ _ _ _ hq]
  exact cacheLookup_filter_none _ _ _ h

theorem onEvictionHook_stat_none (st : SState) (k v : String)
    (hs : fsStat st.fs v = none) : onEvictionHook st k v = st := by
  unfold onEvictionHook
  split
  · rfl
  · rw [hs]

theorem recoverStep_stC2 : recoverStep stC2 = stC2 := by decide

/-- C2 (code slip in the source): the quota reclamation does NOT terminate.
At the concrete state stC2 the index holds one evictable sixty byte entry,
the budget is 100 and the incoming payload is 50 bytes, so the claimed
algorithm would evict k1 and stop; but the source deletes by the VALUE of
the oldest entry ("/f1", which is no key of the index) and has no exit for
an empty or unshrinkable index, so for every fuel the recursion has not
returned. -/
theorem c2_reclaimer_diverges (fuel : Nat) :
    recoverEnoughSpaceIfNeeded 100 fuel stC2 50 = none := by
  induction fuel with
  | zero =>
    unfold recoverEnoughSpaceIfNeeded
    rw [if_pos (by decide)]
  | succ f ih =>
    unfold recoverEnoughSpaceIfNeeded
    rw [if_pos (by decide), recoverStep_stC2]
    exact ih

/-- C10: removing an index entry whose stored value does not name an
existing file leaves the byte counter and the directory contents unchanged,
because the eviction handler returns early when the stat of the value
fails. -/
theorem c10_stat_fail_inert (st : SState) (k v : String) (ttl : Int)
    (hk : cacheLookup st.cache k = some (v, ttl))
    (hs : fsStat st.fs v = none) :
    (Delete st k).actualSize = st.actualSize ∧ (Delete st k).fs = st.fs := by
  have h2 : Delete st k =
      onEvictionHook { st with cache := st.cache.filter (fun e => e.1 != k) } k v := by
    unfold Delete cacheDelete
    rw [hk]
  rw [h2, onEvictionHook_stat_none
    { st with cache := st.cache.filter (fun e => e.1 != k) } k v hs]
  exact ⟨rfl, rfl⟩

/-- Closed instance of c10_stat_fail_inert: deleting the plain entry k of
stRaw, whose raw value names no file, moves neither counter nor files. -/
theorem c10_stat_fail_inert_witness :
    (Delete stRaw "k").actualSize = stRaw.actualSize ∧ (Delete stRaw "k").fs = stRaw.fs :=
  c10_stat_fail_inert stRaw "k" "v" 5 rfl rfl

/-- C7 (amended): the insertion hook is inert for every entry whose KEY
contains the reserved marker; the eviction hook reads the marker in the
entry VALUE instead, so it is inert for entries whose value contains the
marker and for entries whose value does not name an existing file, and a
mapping entry is inert under eviction only through one of those two
accidents rather than through its key. -/
theorem c7_hooks_inert :
    (∀ (st : SState) (k v : String), strContains k mappingPfx = true →
      onInsertionHook st k v = st) ∧
    (∀ (st : SState) (k v : String), strContains v mappingPfx = true →
      onEvictionHook st k v = st) ∧
    (∀ (st : SState) (k v : String), fsStat st.fs v = none →
      onEvictionHook st k v = st) := by
  refine ⟨fun st k v h => ?_, fun st k v h => ?_, fun st k v h => ?_⟩
  · unfold onInsertionHook
    rw [if_pos h]
  · unfold onEvictionHook
    rw [if_pos h]
  · exact onEvictionHook_stat_none st k v h

/-- Closed instance of c7_hooks_inert at concrete hook invocations. -/
theorem c7_hooks_inert_witness :
    onInsertionHook st0 "IDX_a" "x" = st0 ∧
    onEvictionHook st0 "y" "zIDX_w" = st0 ∧
    onEvictionHook st0 "q" "w" = st0 :=
  ⟨c7_hooks_inert.1 st0 "IDX_a" "x" (by decide),
   c7_hooks_inert.2.1 st0 "y" "zIDX_w" (by decide),
   c7_hooks_inert.2.2 st0 "q" "w" rfl⟩

/-- C7 counterexample: the mapping entry IDX_k of stMap carries record bytes
"/f" that do not contain the reserved marker and happen to name an existing
two byte file; evicting it through Delete subtracts the file size from the
counter and deletes the physical file, so the eviction hook does NOT treat
mapping entries identified by their key as inert. -/
theorem c7_counterexample :
    Delete stMap "IDX_k" = { cache := [], fs := [], actualSize := 0 } ∧
    stMap.actualSize = 2 ∧ fsRead stMap.fs "/f" = some "ab" :=
  ⟨by decide, rfl, rfl⟩

/-- C9 (amended): the simple key Set bypasses the codec, the quota
reclaimer and the blob store entirely: it always reports success, leaves
the directory contents untouched, and registers the raw payload bytes
themselves (not a file path) in the index under the key. -/
theorem c9_set_is_index_only (st : SState) (k v : String) (dur : Int) :
    (Simplefs.Set st k v dur).1 = Except.ok () ∧
    (Simplefs.Set st k v dur).2.fs = st.fs ∧
    cacheLookup (Simplefs.Set st k v dur).2.cache k = some (v, dur) := by
  refine ⟨rfl, cacheSet_fs st k v dur, ?_⟩
  show cacheLookup (cacheSet st k v dur).cache k = some (v, dur)
  rw [cacheSet_cache]
  exact cacheLookup_cons_self _ _ _ _

/-- C9 counterexample: running Set on the empty state persists no file (the
directory stays empty), registers the raw payload "v" itself under k rather
than a file path, and the byte accountant is never triggered (actualSize
stays 0), contradicting the claimed codec, reclaimer, blob store and
accounting pipeline for simple key writes. -/
theorem c9_counterexample :
    (Simplefs.Set st0 "k" "v" 5).2.fs = [] ∧
    cacheLookup (Simplefs.Set st0 "k" "v" 5).2.cache "k" = some ("v", 5) ∧
    (Simplefs.Set st0 "k" "v" 5).2.actualSize = 0 :=
  ⟨rfl, rfl, rfl⟩

/-- C3 (amended): set followed by an immediate get returns the payload
unchanged, under every compression configuration, whenever the payload does
not name an existing file: the read of the payload as a path fails and Get
falls back to returning the stored bytes before any decode step runs. -/
theorem c3_roundtrip (cfg : Config) (st : SState) (k v : String) (ttl : Int)
    (ht : 0 < ttl) (hv : fsRead st.fs v = none) :
    Get cfg (Simplefs.Set st k v ttl).2 k = some v := by
  have hl : cacheLookup (cacheSet st k v ttl).cache k = some (v, ttl) := by
    rw [cacheSet_cache]
    exact cacheLookup_cons_self _ _ _ _
  have hg : cacheGet (cacheSet st k v ttl) k = some v := by
    simp only [cacheGet, hl]
    rw [if_pos ht]
  show Get cfg (cacheSet st k v ttl) k = some v
  simp only [Get, hg, cacheSet_fs, hv]

/-- Closed instance of c3_roundtrip with ttl 1 and a payload naming no
file. -/
theorem c3_roundtrip_witness :
    Get cfgW (Simplefs.Set st0 "k" "v" 1).2 "k" = some "v" :=
  c3_roundtrip cfgW st0 "k" "v" 1 (by decide) rfl

/-- C3 counterexample: with no compression configured, storing the payload
"/f", which names an existing empty file, and reading it back returns the
contents of that file (the empty string) instead of the payload, so the
round trip fails for payloads that name existing files. -/
theorem c3_counterexample :
    Get cfgW (Simplefs.Set stF "k" "/f" 1).2 "k" = some "" ∧ ("" : String) ≠ "/f" :=
  ⟨rfl, by decide⟩

theorem encodeStep_unknown (m v : String) (h1 : m ≠ "zstd") (h2 : m ≠ "lz4")
    (h3 : m ≠ "") : encodeStep m v = v := by
  unfold encodeStep
  split
  · exact absurd rfl h1
  · exact absurd rfl h2
  · exact absurd rfl h3
  · rfl

theorem cacheSet_actualSize_cases (st : SState) (k v : String) (ttl : Int) (n : Int)
    (hs : fsStat st.fs v = some n) :
    (cacheSet st k v ttl).actualSize = st.actualSize + n ∨
    (cacheSet st k v ttl).actualSize = st.actualSize := by
  by_cases hc : strContains k mappingPfx
  · right
    exact cacheSet_actualSize_skip st k v ttl hc
  · left
    exact cacheSet_actualSize_stat st k v ttl n (by simpa using hc) hs

/-- C1 (amended): every multi level write that returns at all, under a
finite configured budget, leaves the byte counter within the budget: the
reclamation guard must have been false on exit, the blob adds exactly its
compressed size through the insertion hook, and the mapping record write is
skipped by the hook. The oversized payload exception of the original claim
never materializes, since the reclamation recursion does not reach its exit
then; and the plain Set maintains no such bound (see the counterexample). -/
theorem c1_quota_after_setMultiLevel
    (cfg : Config) (updater : String → String → Except String String)
    (ns fuel : Nat) (st : SState) (baseKey variedKey value : String) (dur : Int)
    (res : Except String Unit) (st' : SState)
    (hB : cfg.directorySize > -1)
    (h : SetMultiLevel cfg updater ns fuel st baseKey variedKey value dur
      = some (res, st')) :
    st'.actualSize ≤ cfg.directorySize := by
  unfold SetMultiLevel at h
  split at h
  · exact absurd h (by simp)
  · rename_i st1 hr
    have hg := recover_exitGuard cfg.directorySize _ fuel st st1 hr
    have hle : st1.actualSize + ((encodeStep cfg.compression value).length : Int)
        ≤ cfg.directorySize := by
      by_contra hc
      exact hg ⟨hB, by omega⟩
    split at h
    · rename_i hw
      simp only [Option.some.injEq, Prod.mk.injEq] at h
      obtain ⟨h1, h2⟩ := h
      subst h2
      omega
    · rename_i fs2 hw
      dsimp only at h
      have hstat : fsStat ({ st1 with fs := fs2 } : SState).fs
          (cfg.path ++ "/" ++ pathEscape variedKey)
          = some ((encodeStep cfg.compression value).length : Int) :=
        fsWrite_stat cfg.wfail st1.fs fs2 _ _ hw
      have h3 := cacheSet_actualSize_cases { st1 with fs := fs2 } variedKey
        (cfg.path ++ "/" ++ pathEscape variedKey) dur _ hstat
      split at h
      · rename_i e hu
        simp only [Option.some.injEq, Prod.mk.injEq] at h
        obtain ⟨h1, h2⟩ := h
        subst h2
        rcases h3 with h3 | h3 <;> rw [h3] <;> dsimp only <;> omega
      · rename_i merged hu
        simp only [Option.some.injEq, Prod.mk.injEq] at h
        obtain ⟨h1, h2⟩ := h
        subst h2
        rw [cacheSet_actualSize_mapping]
        rcases h3 with h3 | h3 <;> rw [h3] <;> dsimp only <;> omega

/-- Closed instance of c1_quota_after_setMultiLevel: the full write path on
cfgW from the empty state ends with a counter of 3 bytes, within the budget
of 100. -/
theorem c1_quota_after_setMultiLevel_witness :
    stW.actualSize ≤ cfgW.directorySize :=
  c1_quota_after_setMultiLevel cfgW updOkM 1 1 st0 "b" "k" "v" 5 (Except.ok ()) stW
    (by decide) (by rfl)

set_option maxRecDepth 8000 in
/-- C1 counterexample: from stSeed, a state the engine itself reaches by
running the Init startup scan over a directory holding a 200 byte file (the
counter is 200, the budget of cfgW is the finite 100), the plain set
operation succeeds with a 1 byte payload, well under the budget, yet the
resulting actualSize is 200, exceeding the budget: the claimed quota bound
does not hold for every successful set operation. -/
theorem c1_counterexample :
    (Simplefs.Set stSeed "k" "v" 5).1 = Except.ok () ∧
    (Simplefs.Set stSeed "k" "v" 5).2.actualSize = 200 ∧
    ¬((Simplefs.Set stSeed "k" "v" 5).2.actualSize ≤ cfgW.directorySize) ∧
    ("v".length : Int) ≤ cfgW.directorySize :=
  ⟨rfl, by decide, by decide, by decide⟩

/-- C4 (amended): an unrecognized compression method does not fail the
write: the encode step degrades to the identity, the call completes, and
the blob file holds the raw plaintext payload. -/
theorem c4_unknown_method_stores_plain
    (cfg : Config) (updater : String → String → Except String String)
    (ns fuel : Nat) (st : SState) (baseKey variedKey value : String) (dur : Int)
    (st1 : SState) (fs2 : Fs)
    (h1 : cfg.compression ≠ "zstd") (h2 : cfg.compression ≠ "lz4")
    (h3 : cfg.compression ≠ "")
    (hr : recoverEnoughSpaceIfNeeded cfg.directorySize fuel st (value.length : Int)
      = some st1)
    (hw : fsWrite cfg.wfail st1.fs (cfg.path ++ "/" ++ pathEscape variedKey) value
      = some fs2) :
    ∃ res st',
      SetMultiLevel cfg updater ns fuel st baseKey variedKey value dur
        = some (res, st') ∧
      fsRead st'.fs (cfg.path ++ "/" ++ pathEscape variedKey) = some value := by
  have he : encodeStep cfg.compression value = value := encodeStep_unknown _ _ h1 h2 h3
  cases hu : updater variedKey ((cacheGet (cacheSet { st1 with fs := fs2 } variedKey
      (cfg.path ++ "/" ++ pathEscape variedKey) dur) (mappingPfx ++ baseKey)).getD "") with
  | error e =>
    refine ⟨Except.error e, cacheSet { st1 with fs := fs2 } variedKey
      (cfg.path ++ "/" ++ pathEscape variedKey) dur, ?_, ?_⟩
    · simp only [SetMultiLevel, he, hr, hw, hu]
    · rw [cacheSet_fs]
      exact fsWrite_read _ _ _ _ _ hw
  | ok merged =>
    refine ⟨Except.ok (), cacheSet (cacheSet { st1 with fs := fs2 } variedKey
      (cfg.path ++ "/" ++ pathEscape variedKey) dur) (mappingPfx ++ baseKey) merged
      (-(2 * (ns : Int))), ?_, ?_⟩
    · simp only [SetMultiLevel, he, hr, hw, hu]
    · rw [cacheSet_fs, cacheSet_fs]
      exact fsWrite_read _ _ _ _ _ hw

/-- Closed instance of c4_unknown_method_stores_plain on cfgBro. -/
theorem c4_unknown_method_stores_plain_witness :
    ∃ res st',
      SetMultiLevel cfgBro updOkM 1 1 st0 "b" "k" "v" 5 = some (res, st') ∧
      fsRead st'.fs (cfgBro.path ++ "/" ++ pathEscape "k") = some "v" :=
  c4_unknown_method_stores_plain cfgBro updOkM 1 1 st0 "b" "k" "v" 5 st0 [("/p/k", "v")]
    (by decide) (by decide) (by decide) (by rfl) (by rfl)

/-- C4 counterexample: with the unrecognized method brotli configured, the
multi level write returns success, no error reaches the caller, and the
stored blob is the raw plaintext payload, contradicting the claim that the
encode step fails such writes. -/
theorem c4_counterexample :
    SetMultiLevel cfgBro updOkM 1 1 st0 "b" "k" "v" 5 = some (Except.ok (), stBro) ∧
    fsRead stBro.fs "/p/k" = some "v" :=
  ⟨rfl, rfl⟩

/-- C5 (amended): when the merge step fails, the multi level write aborts
and propagates the merge error before the mapping record is written, but
AFTER the blob file and the varied key index entry have been written: on
every error return the varied key maps to the blob path in the index, while
an absent mapping record stays absent. -/
theorem c5_merge_failure
    (cfg : Config) (updater : String → String → Except String String)
    (ns fuel : Nat) (st : SState) (baseKey variedKey value : String) (dur : Int)
    (e : String) (st' : SState)
    (hne : variedKey ≠ mappingPfx ++ baseKey)
    (h : SetMultiLevel cfg updater ns fuel st baseKey variedKey value dur
      = some (Except.error e, st')) :
    cacheLookup st'.cache variedKey
      = some (cfg.path ++ "/" ++ pathEscape variedKey, dur) ∧
    (cacheLookup st.cache (mappingPfx ++ baseKey) = none →
      cacheLookup st'.cache (mappingPfx ++ baseKey) = none) := by
  unfold SetMultiLevel at h
  split at h
  · exact absurd h (by simp)
  · rename_i st1 hr
    split at h
    · exact absurd h (by simp)
    · rename_i fs2 hw
      dsimp only at h
      split at h
      · rename_i e2 hu
        simp only [Option.some.injEq, Prod.mk.injEq, Except.error.injEq] at h
        obtain ⟨he, hst⟩ := h
        subst hst
        constructor
        · rw [cacheSet_cache]
          exact cacheLookup_cons_self _ _ _ _
        · intro hm
          have hm1 : cacheLookup st1.cache (mappingPfx ++ baseKey) = none :=
            recover_lookup_none _ _ _ fuel st st1 hr hm
          exact cacheSet_lookup_none { st1 with fs := fs2 } variedKey _ dur _ hne hm1
      · exact absurd h (by simp)

/-- Closed instance of c5_merge_failure on cfgW and the failing merge. -/
theorem c5_merge_failure_witness :
    cacheLookup stErr.cache "k" = some (cfgW.path ++ "/" ++ pathEscape "k", 5) ∧
    (cacheLookup st0.cache (mappingPfx ++ "b") = none →
      cacheLookup stErr.cache (mappingPfx ++ "b") = none) :=
  c5_merge_failure cfgW updBoom 1 1 st0 "b" "k" "v" 5 "boom" stErr (by decide) (by rfl)

/-- C5 counterexample: with a failing merge function, the multi level write
propagates the merge error, but a cache mutation for the call HAS already
occurred: the varied key k is registered in the index (and the blob is on
disk), contradicting the claim that no cache mutation has happened. -/
theorem c5_counterexample :
    SetMultiLevel cfgW updBoom 1 1 st0 "b" "k" "v" 5
      = some (Except.error "boom", stErr) ∧
    cacheLookup stErr.cache "k" = some ("/p/k", 5) :=
  ⟨rfl, rfl⟩

/-- C6: when the blob write fails, the multi level call still returns
success, and the state is exactly the post reclamation state: the varied
key is not registered (an absent key stays absent) and no mapping update is
attempted, so the index never references a variant that is not on disk. -/
theorem c6_write_failure_returns_ok
    (cfg : Config) (updater : String → String → Except String String)
    (ns fuel : Nat) (st : SState) (baseKey variedKey value : String) (dur : Int)
    (st1 : SState)
    (hr : recoverEnoughSpaceIfNeeded cfg.directorySize fuel st
      ((encodeStep cfg.compression value).length : Int) = some st1)
    (hw : fsWrite cfg.wfail st1.fs (cfg.path ++ "/" ++ pathEscape variedKey)
      (encodeStep cfg.compression value) = none) :
    SetMultiLevel cfg updater ns fuel st baseKey variedKey value dur
      = some (Except.ok (), st1) ∧
    (cacheLookup st.cache variedKey = none → cacheLookup st1.cache variedKey = none) := by
  constructor
  · simp only [SetMultiLevel, hr, hw]
  · intro hq
    exact recover_lookup_none _ _ _ fuel st st1 hr hq

/-- Closed instance of c6_write_failure_returns_ok on cfgFail, whose write
of the blob path fails. -/
theorem c6_write_failure_returns_ok_witness :
    SetMultiLevel cfgFail updOkM 1 1 st0 "b" "k" "v" 5 = some (Except.ok (), st0) ∧
    (cacheLookup st0.cache "k" = none → cacheLookup st0.cache "k" = none) :=
  c6_write_failure_returns_ok cfgFail updOkM 1 1 st0 "b" "k" "v" 5 st0 (by rfl) (by rfl)

/-- C8: every multi level write that reaches the mapping update step stores
the merged record under the mapping key with ttl minus twice the nanosecond
clock field, which is at most zero for every invocation time, i.e. already
expired under the ttl convention of the index: a subsequent get of the
mapping key misses. -/
theorem c8_mapping_written_expired
    (cfg : Config) (updater : String → String → Except String String)
    (ns fuel : Nat) (st : SState) (baseKey variedKey value : String) (dur : Int)
    (st1 : SState) (fs2 : Fs) (w : String)
    (hu : ∀ a b, updater a b = Except.ok w)
    (hr : recoverEnoughSpaceIfNeeded cfg.directorySize fuel st
      ((encodeStep cfg.compression value).length : Int) = some st1)
    (hw : fsWrite cfg.wfail st1.fs (cfg.path ++ "/" ++ pathEscape variedKey)
      (encodeStep cfg.compression value) = some fs2) :
    ∃ st',
      SetMultiLevel cfg updater ns fuel st baseKey variedKey value dur
        = some (Except.ok (), st') ∧
      cacheLookup st'.cache (mappingPfx ++ baseKey) = some (w, -(2 * (ns : Int))) ∧
      -(2 * (ns : Int)) ≤ 0 ∧
      cacheGet st' (mappingPfx ++ baseKey) = none := by
  refine ⟨cacheSet (cacheSet { st1 with fs := fs2 } variedKey
      (cfg.path ++ "/" ++ pathEscape variedKey) dur) (mappingPfx ++ baseKey) w
      (-(2 * (ns : Int))), ?_, ?_, ?_, ?_⟩
  · simp only [SetMultiLevel, hr, hw, hu]
  · rw [cacheSet_cache]
    exact cacheLookup_cons_self _ _ _ _
  · omega
  · have hl : cacheLookup (cacheSet (cacheSet { st1 with fs := fs2 } variedKey
        (cfg.path ++ "/" ++ pathEscape variedKey) dur) (mappingPfx ++ baseKey) w
        (-(2 * (ns : Int)))).cache (mappingPfx ++ baseKey)
        = some (w, -(2 * (ns : Int))) := by
      rw [cacheSet_cache]
      exact cacheLookup_cons_self _ _ _ _
    simp only [cacheGet, hl]
    rw [if_neg (by omega)]

/-- Closed instance of c8_mapping_written_expired on cfgW at nanosecond
field 1: the mapping record carries ttl minus two and misses on get. -/
theorem c8_mapping_written_expired_witness :
    ∃ st',
      SetMultiLevel cfgW updOkM 1 1 st0 "b" "k" "v" 5 = some (Except.ok (), st') ∧
      cacheLookup st'.cache (mappingPfx ++ "b") = some ("m", -(2 * ((1 : Nat) : Int))) ∧
      -(2 * ((1 : Nat) : Int)) ≤ 0 ∧
      cacheGet st' (mappingPfx ++ "b") = none :=
  c8_mapping_written_expired cfgW updOkM 1 1 st0 "b" "k" "v" 5 st0 [("/p/k", "L4v")] "m"
    (fun _ _ => rfl) rfl rfl

end Simplefs
